import Mathlib

/-!
Shallow embedding of `src/price_tracker.py` (a polling price tracker) and
proofs about it.

Modelling conventions:
* Python floats are modelled as exact rationals (`ℚ`); the 6-decimal-place
  formatting `f"{v:.6f}"` is modelled as rounding `v * 10^6` to the nearest
  integer with ties to even (the rounding Python applies to the decimal
  rendering), followed by decimal digit rendering.
* Network and filesystem effects are passed in explicitly as environment
  values (one field per external query the code performs).
* Python exceptions that a function can raise past its own boundary are
  modelled with `Except`; exceptions the function itself catches do not
  appear in its result type.
-/

namespace PriceTracker

/-! ### Decimal digit rendering and parsing helpers -/

/-- The character for a single decimal digit `d < 10` (Python renders digits
as ASCII `'0' + d`). -/
def digCh (d : Nat) : Char := Char.ofNat (48 + d)

/-- Numeric value of a decimal digit character. -/
def digToNat (c : Char) : Nat := c.toNat - 48

/-- Value of a big-endian list of decimal digit characters. -/
def natOfChars (l : List Char) : Nat := l.foldl (fun a c => 10 * a + digToNat c) 0

/-- Little-endian decimal digits of `n`, with explicit fuel so that the
definition is structurally recursive (kernel-reducible). -/
def natDigitsAux : Nat → Nat → List Nat
  | 0, _ => []
  | fuel + 1, n => if n = 0 then [] else n % 10 :: natDigitsAux fuel (n / 10)

/-- Little-endian decimal digits of `n` (`[]` for `0`). -/
def natDigitsLE (n : Nat) : List Nat := natDigitsAux n n

/-- Value of a little-endian digit list. -/
def ofLE : List Nat → Nat
  | [] => 0
  | d :: ds => d + 10 * ofLE ds

/-- Big-endian decimal character rendering of `n`, as Python's `str`/format
would print a nonnegative integer part. -/
def renderNat (n : Nat) : List Char :=
  if n = 0 then ['0'] else ((natDigitsLE n).map digCh).reverse

/-- Round `v * 10^6` to the nearest integer, ties to even: the numeric
content of Python's `f"{v:.6f}"` on the (exact-rational model of the)
value `v`. -/
def rhe6 (v : ℚ) : ℤ :=
  let x := v * 1000000
  let n := ⌊x⌋
  if x - n > 1 / 2 then n + 1
  else if x - n < 1 / 2 then n
  else if n % 2 = 0 then n else n + 1

/-- The six fraction digits of a scaled value `fp < 10^6`, most significant
first. -/
def frac6Chars (fp : Nat) : List Char :=
  [digCh (fp / 100000 % 10), digCh (fp / 10000 % 10), digCh (fp / 1000 % 10),
    digCh (fp / 100 % 10), digCh (fp / 10 % 10), digCh (fp % 10)]

/-- Model of `f"{v:.6f}".replace('.', ',')` (used verbatim by both value
sources, lines 48 and 85 of the source): sign, integer part, a comma, and
exactly six fraction digits.  The sign is taken from the rounded value. -/
def format6 (v : ℚ) : String :=
  let n := rhe6 v
  let m := n.natAbs
  let chars := renderNat (m / 1000000) ++ ',' :: frac6Chars (m % 1000000)
  String.mk (if n < 0 then '-' :: chars else chars)

/-- Parse an unsigned decimal numeral whose decimal separator is `sep`:
digits, optionally followed by `sep` and further digits (at least one digit
overall).  This is the decimal core shared by the model of Python's
`float(...)` and by the spec's parse-back direction. -/
def parseDec (sep : Char) (l : List Char) : Option ℚ :=
  let ip := l.takeWhile Char.isDigit
  let rest := l.dropWhile Char.isDigit
  match rest with
  | [] => if ip.isEmpty then none else some ((natOfChars ip : ℚ))
  | c :: fs =>
    if c = sep ∧ fs.all Char.isDigit ∧ (ip ≠ [] ∨ fs ≠ []) then
      some ((natOfChars ip : ℚ) + (natOfChars fs : ℚ) / (10 : ℚ) ^ fs.length)
    else none

/-- Parse an optionally `'-'`-signed decimal numeral with separator `sep`. -/
def parseSigned (sep : Char) (l : List Char) : Option ℚ :=
  match l with
  | [] => none
  | c :: rest => if c = '-' then (parseDec sep rest).map (fun q => -q) else parseDec sep (c :: rest)

/-- Model of Python's `float(s)` on the decimal-numeral strings this program
feeds it (optional sign, digits, optional period and digits). -/
def pyFloat (s : String) : Option ℚ := parseSigned '.' s.data

/-- The spec's parse-back direction for claim C8: read a comma-separated
decimal string back into a rational (converting the comma decimal separator
back to a period). -/
def parseCommaValue (s : String) : Option ℚ := parseSigned ',' s.data

/-- Rounding a value to 6 decimal places, the precision the output format
preserves. -/
def roundTo6 (v : ℚ) : ℚ := (rhe6 v : ℚ) / 1000000

/-- Model of Python's `s.replace(a, '')` for a one-character pattern: drop
every occurrence of `a`. -/
def pyDelete (a : Char) (s : String) : String := String.mk (s.data.filter (fun c => c ≠ a))

/-- Model of Python's `s.replace(a, b)` for one-character pattern and
replacement: substitute every occurrence of `a` by `b`. -/
def pySwap (a b : Char) (s : String) : String :=
  String.mk (s.data.map (fun c => if c = a then b else c))

/-- Model of Python's `s.upper()` on the ASCII configuration strings this
program handles. -/
def pyUpper (s : String) : String := String.mk (s.data.map Char.toUpper)

/-! ### Python exceptions that escape a modelled function -/

/-- The uncaught exceptions the embedded code can raise. -/
inductive PyExc where
  | attributeError : PyExc
  | indexError : PyExc
  | keyError (key : String) : PyExc
deriving DecidableEq, Repr

/-! ### ValueSource: market-quote lookup (`get_current_value`, lines 35-52) -/

/-- Outcome of `yf.Ticker(symbol).history(period="1d", interval="1m")`:
either the provider raises, or it returns a (possibly empty) series of
close prices. -/
inductive YfHistory where
  | raise (e : String) : YfHistory
  | data (closes : List ℚ) : YfHistory

/-- Embedding of `get_current_value` (lines 35-52).  The whole body is
wrapped in `try/except Exception`, so every provider outcome produces a
string and no exception escapes; the model is therefore total at type
`String`. -/
def get_current_value : YfHistory → String
  | YfHistory.raise e => "yfinance Error: " ++ e
  | YfHistory.data closes =>
    match closes.getLast? with
    | some last_value => format6 last_value
    | none => "No data found via yfinance."

/-! ### ValueSource: scraped-fund lookup (`get_fund_value`, lines 54-88) -/

/-- The second `td` cell of the first data row, as text (`.strip()` already
applied by the environment). -/
structure FundRow where
  tds : List String
deriving DecidableEq

/-- Result of `table.find('tbody')` and, inside it, `.find('tr')`. -/
structure FundTBody where
  firstTr : Option FundRow
deriving DecidableEq

/-- Result of `soup.find('table', {'class': 'genTbl closedTbl historicalTbl'})`. -/
structure FundTable where
  tbody : Option FundTBody
deriving DecidableEq

/-- Shape of the parsed HTML document, as far as `get_fund_value` inspects it. -/
structure FundDoc where
  table : Option FundTable
deriving DecidableEq

/-- Outcome of `requests.get(url, ...)` plus `raise_for_status()`: either a
`requests.RequestException` (connection error, timeout, bad status), or a
successfully parsed document. -/
inductive HttpResult where
  | raise (e : String) : HttpResult
  | ok (doc : FundDoc) : HttpResult
deriving DecidableEq

/-- Embedding of `get_fund_value` (lines 54-88).  Only the request itself and
the final `float(...)` conversion sit inside `try` blocks, so two document
shapes make the function raise past its boundary rather than return a
string: a table without a `tbody` (line 76 evaluates
`table.find('tbody').find('tr')`, i.e. `None.find('tr')`, an
`AttributeError`), and a first row with fewer than two `td` cells
(line 81 evaluates `first_row.find_all('td')[1]`, an `IndexError`). -/
def get_fund_value : HttpResult → Except PyExc String
  | HttpResult.raise e => Except.ok ("Connection Error: " ++ e)
  | HttpResult.ok doc =>
    match doc.table with
    | none => Except.ok "Error: No historical data table found."
    | some table =>
      match table.tbody with
      | none => Except.error PyExc.attributeError
      | some tbody =>
        match tbody.firstTr with
        | none => Except.ok "Error: No recent data row found."
        | some first_row =>
          match first_row.tds with
          | _ :: vl_str :: _ =>
            let vl_clean := pySwap ',' '.' (pyDelete '.' vl_str)
            match pyFloat vl_clean with
            | some value_float => Except.ok (format6 value_float)
            | none =>
              Except.ok ("Format Error: Extracted value \x27" ++ vl_str ++ "\x27 is not valid.")
          | _ => Except.error PyExc.indexError

/-! ### MarketStateOracle (`is_market_open`, lines 91-109) -/

/-- Outcome of reading `yf.Ticker(symbol).info`: either the provider raises,
or it returns a metadata dictionary whose `marketState` entry
(`info.get('marketState')`) may be absent. -/
inductive MarketInfo where
  | raise (e : String) : MarketInfo
  | info (marketState : Option String) : MarketInfo
deriving DecidableEq

/-- Embedding of `is_market_open` (lines 91-109): true iff the reported
market state is one of REGULAR, PRE, POST; the whole body is inside
`try/except Exception`, so a provider error yields `false` instead of
propagating. -/
def is_market_open : MarketInfo → Bool
  | MarketInfo.raise _ => false
  | MarketInfo.info ms =>
    match ms with
    | some s => s = "REGULAR" ∨ s = "PRE" ∨ s = "POST"
    | none => false

/-! ### ConfigLoader (`load_config`, lines 111-151) -/

/-- One entry of the `symbols` list: a YAML mapping in which each of the
three keys the program reads may be absent (`item['k']` on an absent key
raises `KeyError`). -/
structure Item where
  symbol : Option String
  filepath : Option String
  source : Option String
deriving DecidableEq

/-- The value found at the `symbols` key when it is present: either a YAML
sequence of entries or some other YAML shape. -/
inductive YamlSymbols where
  | list (items : List Item) : YamlSymbols
  | notList : YamlSymbols

/-- The `settings` mapping, every key optional. -/
structure RawSettings where
  sleep_interval : Option Int
  log_level : Option String
  log_file : Option String
  max_log_size_mb : Option Int
  backup_count : Option Int

/-- A successfully parsed YAML configuration document, as far as
`load_config` inspects it. -/
structure RawConfig where
  symbols : Option YamlSymbols
  settings : Option RawSettings

/-- The exceptions `load_config` itself raises after a successful YAML parse
(lines 132-136). -/
inductive ConfigError where
  | keyError (msg : String) : ConfigError
  | typeError (msg : String) : ConfigError
deriving DecidableEq

/-- The settings after defaulting, with `log_level` mapped to its numeric
`logging` constant. -/
structure LoadedSettings where
  sleep_interval : Int
  log_level : Nat
  log_file : String
  max_log_size_mb : Int
  backup_count : Int
deriving DecidableEq

/-- Result of `load_config`, together with the warning lines it logged. -/
structure LoadedConfig where
  symbols : List Item
  settings : LoadedSettings
  warnings : List String
deriving DecidableEq

/-- Numeric values of the `logging` module constants used in
`LOG_LEVEL_MAP` (lines 12-18). -/
def LOG_LEVEL_MAP : List (String × Nat) :=
  [("DEBUG", 10), ("INFO", 20), ("WARNING", 30), ("ERROR", 40), ("CRITICAL", 50)]

/-- The warning line logged when `sleep_interval` is absent (line 142). -/
def sleepIntervalWarning : String :=
  "Configuration Warning: \x27sleep_interval\x27 not found. Defaulting to 30 seconds."

/-- Embedding of `load_config` (lines 132-151), starting after the YAML file
has been read and parsed into `cfg`: validate `symbols`, then fill the
settings defaults.  `settings.get('log_level', 'INFO').upper()` is looked up
in `LOG_LEVEL_MAP` with fallback `logging.INFO` (= 20); no warning is
emitted on that fallback, the only warning is for an absent
`sleep_interval`. -/
def load_config (cfg : RawConfig) : Except ConfigError LoadedConfig :=
  match cfg.symbols with
  | none => Except.error (ConfigError.keyError "YAML configuration missing \x27symbols\x27 section.")
  | some YamlSymbols.notList =>
    Except.error
      (ConfigError.typeError "The \x27symbols\x27 section must be a list of configuration objects.")
  | some (YamlSymbols.list items) =>
    let s := cfg.settings.getD ⟨none, none, none, none, none⟩
    let sleepPair : Int × List String :=
      match s.sleep_interval with
      | none => (30, [sleepIntervalWarning])
      | some v => (v, [])
    let log_level_str := pyUpper (s.log_level.getD "INFO")
    let log_level := (LOG_LEVEL_MAP.lookup log_level_str).getD 20
    Except.ok
      { symbols := items
        settings :=
          { sleep_interval := sleepPair.1
            log_level := log_level
            log_file := s.log_file.getD "./price_tracker.log"
            max_log_size_mb := s.max_log_size_mb.getD 5
            backup_count := s.backup_count.getD 3 }
        warnings := sleepPair.2 }

/-! ### SchedulingPolicy: weekend gate (`get_time_to_next_monday`, lines 20-33) -/

/-- A naive local timestamp as `datetime.datetime.now()` exposes it to this
code: the weekday (Monday = 0 .. Sunday = 6) and the time of day. -/
structure LocalTime where
  weekday : Fin 7
  hour : Fin 24
  minute : Fin 60
  second : Fin 60
  microsecond : Fin 1000000
deriving DecidableEq

/-- Seconds elapsed since local midnight. -/
def secondsIntoDay (t : LocalTime) : Nat :=
  3600 * t.hour.val + 60 * t.minute.val + t.second.val

/-- Embedding of `get_time_to_next_monday` (lines 20-33).  For a weekend
day, `next_monday - today` is a `timedelta` of exactly
`days * 86400 * 10^6 - (secondsIntoDay * 10^6 + microsecond)` microseconds
(a positive quantity), and `int(total_seconds())` truncates it toward zero
to whole seconds, i.e. floor-divides the microsecond count by `10^6` (the
float `total_seconds()` is, at this magnitude, far too close to the exact
value for the double rounding to cross an integer). -/
def get_time_to_next_monday (t : LocalTime) : Nat :=
  if 5 ≤ t.weekday.val then
    let days_until_monday := 7 - t.weekday.val
    (days_until_monday * 86400 * 1000000 - (secondsIntoDay t * 1000000 + t.microsecond.val))
      / 1000000
  else 0

/-- Advance a local time by `n` seconds of wall-clock time (weeks wrap
around); used to state what "seconds until next Monday 00:00" means
independently of the code's arithmetic. -/
def advanceSeconds (t : LocalTime) (n : Nat) : LocalTime :=
  let total := (86400 * t.weekday.val + secondsIntoDay t + n) % 604800
  { weekday := ⟨total / 86400, by omega⟩
    hour := ⟨total % 86400 / 3600, by omega⟩
    minute := ⟨total % 3600 / 60, by omega⟩
    second := ⟨total % 60, by omega⟩
    microsecond := t.microsecond }

/-- A time is exactly Monday 00:00 local time. -/
def isMondayMidnight (t : LocalTime) : Prop :=
  t.weekday.val = 0 ∧ secondsIntoDay t = 0 ∧ t.microsecond.val = 0

/-! ### TrackerLoop: one cycle of `main` (lines 222-251) -/

/-- The externally visible effects of one cycle we reason about: fetch
invocations and file-write attempts (a write attempt carries whether the
`open`/`write` succeeded; on failure the `IOError` is caught at lines
247-248 and the file is left as it was). -/
inductive Action where
  | fetchFund (symbol : String) : Action
  | fetchQuote (symbol : String) : Action
  | write (filepath value : String) (ok : Bool) : Action
deriving DecidableEq, Repr

/-- Environment of one cycle: every external query the loop body can make.
`mtime fp = none` models `os.path.exists(fp) = False`; `some (Except.error e)`
models `os.path.getmtime` raising `OSError` (caught at lines 234-235);
`some (Except.ok m)` is the modification timestamp.  `now` is `time.time()`.
`writeOk fp` tells whether `open(fp, "w")`/`write` succeeds. -/
structure Env where
  now : Int
  mtime : String → Option (Except String Int)
  marketInfo : String → MarketInfo
  yfHistory : String → YfHistory
  fundHttp : String → HttpResult
  writeOk : String → Bool

/-- Embedding of the per-instrument body of the cycle loop (lines 222-248):
the actions it performs, and the exception it raises if one escapes
(`item['symbol']`-style `KeyError`s from lines 223-225, or whatever
`get_fund_value` raises).  Actions performed before the exception are
kept. -/
def processItem (env : Env) (it : Item) : List Action × Option PyExc :=
  match it.symbol with
  | none => ([], some (PyExc.keyError "symbol"))
  | some symbol =>
    match it.filepath with
    | none => ([], some (PyExc.keyError "filepath"))
    | some filepath =>
      match it.source with
      | none => ([], some (PyExc.keyError "source"))
      | some source =>
        if source = "investing" then
          let skip : Bool :=
            match env.mtime filepath with
            | some (Except.ok m) => decide (env.now - m < 24 * 3600)
            | _ => false
          if skip then ([], none)
          else
            match get_fund_value (env.fundHttp symbol) with
            | Except.error e => ([Action.fetchFund symbol], some e)
            | Except.ok value =>
              ([Action.fetchFund symbol, Action.write filepath value (env.writeOk filepath)], none)
        else
          if is_market_open (env.marketInfo symbol) then
            let value := get_current_value (env.yfHistory symbol)
            ([Action.fetchQuote symbol, Action.write filepath value (env.writeOk filepath)], none)
          else ([], none)

/-- Embedding of the `for item in symbols_config` loop of one cycle
(lines 222-248): items are processed in order; an exception escaping one
item's processing aborts the cycle (and, since the `while True` loop has no
handler, the process). -/
def runCycle (env : Env) : List Item → List Action × Option PyExc
  | [] => ([], none)
  | it :: rest =>
    match processItem env it with
    | (acts, some e) => (acts, some e)
    | (acts, none) =>
      let r := runCycle env rest
      (acts ++ r.1, r.2)

/-- Embedding of the startup path of `main` that touches the instrument
entries (lines 203-208): each entry's `filepath` is read (raising `KeyError`
if absent) before the run loop starts; any such exception is caught at
lines 210-212 and is fatal (the process returns without entering the run
loop). -/
def startupFilepaths : List Item → Except PyExc (List String)
  | [] => Except.ok []
  | it :: rest =>
    match it.filepath with
    | none => Except.error (PyExc.keyError "filepath")
    | some fp =>
      match startupFilepaths rest with
      | Except.error e => Except.error e
      | Except.ok fps => Except.ok (fp :: fps)

/-- File contents after executing the successful writes of an action list,
in order, starting from contents `c`. -/
def applyActions (c : String → String) (acts : List Action) : String → String :=
  acts.foldl
    (fun contents a =>
      match a with
      | Action.write p v true => fun q => if q = p then v else contents q
      | _ => contents)
    c

/-- Is this action a write attempt to path `p`? -/
def isWriteTo (p : String) : Action → Bool
  | Action.write q _ _ => q = p
  | _ => false

/-- Number of write attempts to path `p` in an action list. -/
def countWrites (acts : List Action) (p : String) : Nat := (acts.filter (isWriteTo p)).length

/-- The spec's per-instrument skip condition (spec section 4.3), stated
independently of the loop embedding: a scraped-fund instrument is skipped
when its output file exists, its modification time could be read, and its
age is under 24 hours; a market-quote instrument is skipped when its market
is not open. -/
def skipsFetch (env : Env) (symbol filepath source : String) : Bool :=
  if source = "investing" then
    match env.mtime filepath with
    | some (Except.ok m) => decide (env.now - m < 24 * 3600)
    | _ => false
  else !is_market_open (env.marketInfo symbol)

/-! ### Concrete fixtures used by witnesses and counterexamples -/

/-- Saturday 10:00:00.000000 (weekday 5). -/
def satTen : LocalTime :=
  ⟨⟨5, by norm_num⟩, ⟨10, by norm_num⟩, ⟨0, by norm_num⟩, ⟨0, by norm_num⟩, ⟨0, by norm_num⟩⟩

/-- Wednesday 10:00:00.000000 (weekday 2). -/
def wedTen : LocalTime :=
  ⟨⟨2, by norm_num⟩, ⟨10, by norm_num⟩, ⟨0, by norm_num⟩, ⟨0, by norm_num⟩, ⟨0, by norm_num⟩⟩

/-- A demonstration environment: the clock reads 1000000; `fresh.txt` was
modified 1000 seconds ago, `oserr.txt` cannot be statted, every other path
is absent; only symbol `OPEN` trades in a market reported open; every quote
history ends with close price 5; the fund page for symbol `BADPAGE` parses
to a historical table with no `tbody`, every other fund request fails to
connect; all writes succeed. -/
def envDemo : Env :=
  { now := 1000000
    mtime := fun p =>
      if p = "fresh.txt" then some (Except.ok 999000)
      else if p = "oserr.txt" then some (Except.error "stat failed")
      else none
    marketInfo := fun s =>
      if s = "OPEN" then MarketInfo.info (some "REGULAR") else MarketInfo.info none
    yfHistory := fun _ => YfHistory.data [5]
    fundHttp := fun s =>
      if s = "BADPAGE" then HttpResult.ok ⟨some ⟨none⟩⟩ else HttpResult.raise "timeout"
    writeOk := fun _ => true }

/-- Like `envDemo` but every fund request fails to connect, so
`get_fund_value` always returns a string (a connection-error message) and
never raises. -/
def envSafe : Env :=
  { envDemo with fundHttp := fun _ => HttpResult.raise "timeout" }

/-- A scraped-fund instrument whose output file is fresh (modified under 24
hours ago in `envDemo`). -/
def itemFresh : Item := ⟨some "FUND", some "fresh.txt", some "investing"⟩

/-- A scraped-fund instrument whose output file does not exist in
`envDemo`. -/
def itemAbsent : Item := ⟨some "FUND", some "absent.txt", some "investing"⟩

/-- A cycle in which the first instrument's fund page has no `tbody` and the
second instrument is an open-market quote. -/
def itemsCrash : List Item :=
  [⟨some "BADPAGE", some "f1.txt", some "investing"⟩, ⟨some "OPEN", some "f2.txt", some "yahoo"⟩]

/-- Two market-quote instruments sharing one output path; the first one's
market is closed, the second one's is open. -/
def itemsAlias : List Item :=
  [⟨some "CLOSED", some "shared.txt", some "yahoo"⟩,
    ⟨some "OPEN", some "shared.txt", some "yahoo"⟩]

/-- A well-formed skipped instrument followed by an entry with no `source`
key. -/
def itemsMissingKey : List Item :=
  [⟨some "CLOSED", some "f.txt", some "yahoo"⟩, ⟨some "X", some "g.txt", none⟩]

/-- A single entry with no `filepath` key. -/
def itemsNoPath : List Item := [⟨some "X", none, some "yahoo"⟩]

/-- A single market-quote instrument whose market is closed in `envSafe`. -/
def itemsSkipOnly : List Item := [⟨some "CLOSED", some "a.txt", some "yahoo"⟩]

/-! ### General lemmas about digit rendering and parsing -/

theorem digToNat_digCh {d : Nat} (h : d < 10) : digToNat (digCh d) = d := by
  interval_cases d <;> rfl

theorem isDigit_digCh {d : Nat} (h : d < 10) : (digCh d).isDigit = true := by
  interval_cases d <;> rfl

theorem isDigit_ne_dash {c : Char} (h : c.isDigit = true) : ¬ c = '-' := by
  intro he
  rw [he] at h
  exact absurd h (by decide)

theorem ofLE_natDigitsAux : ∀ fuel n, n ≤ fuel → ofLE (natDigitsAux fuel n) = n := by
  intro fuel
  induction fuel with
  | zero =>
    intro n h
    interval_cases n
    rfl
  | succ f ih =>
    intro n h
    by_cases h0 : n = 0
    · subst h0; rfl
    · have hrec : ofLE (natDigitsAux f (n / 10)) = n / 10 := by
        have : n / 10 < n := Nat.div_lt_self (Nat.pos_of_ne_zero h0) (by norm_num)
        exact ih _ (by omega)
      simp only [natDigitsAux, if_neg h0, ofLE, hrec]
      omega

theorem natDigitsAux_lt : ∀ fuel n d, d ∈ natDigitsAux fuel n → d < 10 := by
  intro fuel
  induction fuel with
  | zero => intro n d h; simp [natDigitsAux] at h
  | succ f ih =>
    intro n d h
    by_cases h0 : n = 0
    · rw [h0] at h; simp [natDigitsAux] at h
    · simp only [natDigitsAux, if_neg h0, List.mem_cons] at h
      rcases h with h | h
      · omega
      · exact ih _ _ h

theorem natDigitsAux_ne_nil {fuel n : Nat} (h0 : n ≠ 0) (hf : fuel ≠ 0) :
    natDigitsAux fuel n ≠ [] := by
  cases fuel with
  | zero => exact absurd rfl hf
  | succ f => simp [natDigitsAux, h0]

theorem natOfChars_append (l : List Char) (c : Char) :
    natOfChars (l ++ [c]) = 10 * natOfChars l + digToNat c := by
  simp [natOfChars, List.foldl_append]

theorem natOfChars_rev_map {ds : List Nat} (h : ∀ d ∈ ds, d < 10) :
    natOfChars ((ds.map digCh).reverse) = ofLE ds := by
  induction ds with
  | nil => rfl
  | cons d ds ih =>
    have h1 : d < 10 := h d (by simp)
    simp only [List.map_cons, List.reverse_cons]
    rw [natOfChars_append, ih (fun x hx => h x (by simp [hx])), digToNat_digCh h1]
    simp only [ofLE]
    omega

theorem natOfChars_renderNat (n : Nat) : natOfChars (renderNat n) = n := by
  by_cases h0 : n = 0
  · subst h0; rfl
  · rw [renderNat, if_neg h0, natDigitsLE,
      natOfChars_rev_map (fun d hd => natDigitsAux_lt n n d hd)]
    exact ofLE_natDigitsAux n n le_rfl

theorem renderNat_digits (n : Nat) : ∀ c ∈ renderNat n, c.isDigit = true := by
  intro c hc
  by_cases h0 : n = 0
  · subst h0
    simp [renderNat] at hc
    rw [hc]
    rfl
  · simp only [renderNat, if_neg h0, List.mem_reverse, List.mem_map, natDigitsLE] at hc
    obtain ⟨d, hd, hrfl⟩ := hc
    rw [← hrfl]
    exact isDigit_digCh (natDigitsAux_lt n n d hd)

theorem renderNat_ne_nil (n : Nat) : renderNat n ≠ [] := by
  by_cases h0 : n = 0
  · subst h0; simp [renderNat]
  · simp only [renderNat, if_neg h0, natDigitsLE, ne_eq, List.reverse_eq_nil_iff,
      List.map_eq_nil_iff]
    exact natDigitsAux_ne_nil h0 h0

theorem takeWhile_append_stop {p : Char → Bool} :
    ∀ (l1 : List Char) (c : Char) (l2 : List Char), (∀ x ∈ l1, p x = true) → p c = false →
      (l1 ++ c :: l2).takeWhile p = l1 ∧ (l1 ++ c :: l2).dropWhile p = c :: l2 := by
  intro l1
  induction l1 with
  | nil =>
    intro c l2 _ hc
    constructor <;> simp [List.takeWhile_cons, List.dropWhile_cons, hc]
  | cons a l ih =>
    intro c l2 h hc
    have ha : p a = true := h a (by simp)
    have hrec := ih c l2 (fun x hx => h x (by simp [hx])) hc
    constructor <;>
      simp [List.takeWhile_cons, List.dropWhile_cons, ha, hrec.1, hrec.2]

theorem frac6Chars_digits (fp : Nat) : ∀ c ∈ frac6Chars fp, c.isDigit = true := by
  intro c hc
  simp only [frac6Chars, List.mem_cons, List.not_mem_nil, or_false] at hc
  rcases hc with h | h | h | h | h | h <;> rw [h] <;> exact isDigit_digCh (by omega)

theorem natOfChars_frac6 {fp : Nat} (h : fp < 1000000) : natOfChars (frac6Chars fp) = fp := by
  simp only [frac6Chars, natOfChars, List.foldl_cons, List.foldl_nil]
  rw [digToNat_digCh (by omega), digToNat_digCh (by omega), digToNat_digCh (by omega),
    digToNat_digCh (by omega), digToNat_digCh (by omega), digToNat_digCh (by omega)]
  omega

theorem parseDec_render (m : Nat) :
    parseDec ',' (renderNat (m / 1000000) ++ ',' :: frac6Chars (m % 1000000)) =
      some ((m : ℚ) / 1000000) := by
  obtain ⟨htw, hdw⟩ := takeWhile_append_stop (renderNat (m / 1000000)) ','
    (frac6Chars (m % 1000000)) (renderNat_digits _) (by decide)
  rw [parseDec]
  simp only [htw, hdw]
  rw [if_pos ?hcnd]
  case hcnd =>
    refine ⟨by trivial, List.all_eq_true.mpr (frac6Chars_digits _), Or.inl (renderNat_ne_nil _)⟩
  rw [natOfChars_renderNat, natOfChars_frac6 (Nat.mod_lt _ (by norm_num))]
  have hlen : (frac6Chars (m % 1000000)).length = 6 := rfl
  rw [hlen]
  have key : ((m / 1000000 : Nat) : ℚ) + ((m % 1000000 : Nat) : ℚ) / (10 : ℚ) ^ 6 =
      (m : ℚ) / 1000000 := by
    rw [show ((10 : ℚ) ^ 6) = 1000000 by norm_num, eq_div_iff (by norm_num : (1000000 : ℚ) ≠ 0),
      add_mul, div_mul_cancel₀ _ (by norm_num : (1000000 : ℚ) ≠ 0)]
    norm_cast
    omega
  rw [key]

theorem rhe6_of_eq_int {v : ℚ} {n : ℤ} (h : v * 1000000 = (n : ℚ)) : rhe6 v = n := by
  rw [rhe6]
  simp only [h, Int.floor_intCast, sub_self]
  rw [if_neg (by norm_num), if_pos (by norm_num)]

theorem rhe6_div_1000000 (n : ℤ) : rhe6 ((n : ℚ) / 1000000) = n :=
  rhe6_of_eq_int (by field_simp)

theorem parseCommaValue_format6 (v : ℚ) :
    parseCommaValue (format6 v) = some ((rhe6 v : ℚ) / 1000000) := by
  rw [format6, parseCommaValue]
  obtain ⟨c, cs, hcs⟩ : ∃ c cs, renderNat ((rhe6 v).natAbs / 1000000) = c :: cs := by
    cases h : renderNat ((rhe6 v).natAbs / 1000000) with
    | nil => exact absurd h (renderNat_ne_nil _)
    | cons c cs => exact ⟨c, cs, rfl⟩
  have hcd : c.isDigit = true := renderNat_digits _ c (by rw [hcs]; simp)
  have hcast : (((rhe6 v).natAbs : ℚ)) = |((rhe6 v : ℚ))| := by
    rw [Int.cast_natAbs, Int.cast_abs]
  by_cases hneg : rhe6 v < 0
  · rw [if_pos hneg]
    show (parseDec ',' _).map (fun q => -q) = _
    rw [parseDec_render ((rhe6 v).natAbs)]
    show some (-((((rhe6 v).natAbs : ℕ) : ℚ) / 1000000)) = some ((rhe6 v : ℚ) / 1000000)
    congr 1
    rw [hcast, abs_of_nonpos (by exact_mod_cast le_of_lt hneg)]
    ring
  · rw [if_neg hneg]
    show parseSigned ',' _ = _
    rw [hcs, List.cons_append, parseSigned]
    rw [if_neg (isDigit_ne_dash hcd), ← List.cons_append, ← hcs]
    rw [parseDec_render ((rhe6 v).natAbs)]
    congr 1
    rw [hcast, abs_of_nonneg (by exact_mod_cast le_of_not_lt hneg)]

/-! ### Lemmas about the cycle loop -/

theorem processItem_eq (env : Env) (it : Item) (sym fp src : String)
    (h1 : it.symbol = some sym) (h2 : it.filepath = some fp) (h3 : it.source = some src) :
    processItem env it =
      if skipsFetch env sym fp src then ([], none)
      else if src = "investing" then
        match get_fund_value (env.fundHttp sym) with
        | Except.error e => ([Action.fetchFund sym], some e)
        | Except.ok v => ([Action.fetchFund sym, Action.write fp v (env.writeOk fp)], none)
      else
        ([Action.fetchQuote sym,
          Action.write fp (get_current_value (env.yfHistory sym)) (env.writeOk fp)], none) := by
  simp only [processItem, skipsFetch, h1, h2, h3]
  by_cases hsrc : src = "investing"
  · simp [hsrc]
  · simp only [if_neg hsrc]
    cases hopen : is_market_open (env.marketInfo sym) with
    | true => simp
    | false => simp

theorem processItem_snd_none (env : Env) (it : Item) (sym fp src : String)
    (h1 : it.symbol = some sym) (h2 : it.filepath = some fp) (h3 : it.source = some src)
    (hnf : ∀ s, ∃ v, get_fund_value (env.fundHttp s) = Except.ok v) :
    (processItem env it).2 = none := by
  rw [processItem_eq env it sym fp src h1 h2 h3]
  cases hskip : skipsFetch env sym fp src with
  | true => simp
  | false =>
    by_cases hsrc : src = "investing"
    · obtain ⟨v, hv⟩ := hnf sym
      simp [hsrc, hv]
    · simp [hsrc]

theorem processItem_countWrites (env : Env) (it : Item) (sym fp src : String)
    (h1 : it.symbol = some sym) (h2 : it.filepath = some fp) (h3 : it.source = some src)
    (hnf : ∀ s, ∃ v, get_fund_value (env.fundHttp s) = Except.ok v) :
    countWrites (processItem env it).1 fp = (if skipsFetch env sym fp src then 0 else 1) ∧
    ∀ p, p ≠ fp → countWrites (processItem env it).1 p = 0 := by
  rw [processItem_eq env it sym fp src h1 h2 h3]
  cases hskip : skipsFetch env sym fp src with
  | true => simp [countWrites]
  | false =>
    by_cases hsrc : src = "investing"
    · obtain ⟨v, hv⟩ := hnf sym
      refine ⟨?_, ?_⟩
      · simp [hsrc, hv, countWrites, isWriteTo]
      · intro p hp
        have hfp : ¬ fp = p := fun h => hp h.symm
        simp [hsrc, hv, countWrites, isWriteTo, hfp]
    · refine ⟨?_, ?_⟩
      · simp [hsrc, countWrites, isWriteTo]
      · intro p hp
        have hfp : ¬ fp = p := fun h => hp h.symm
        simp [hsrc, countWrites, isWriteTo, hfp]

theorem processItem_writes_false (env : Env) (it : Item) (sym fp src : String) (p : String)
    (h1 : it.symbol = some sym) (h2 : it.filepath = some fp) (h3 : it.source = some src)
    (hsp : skipsFetch env sym fp src = true ∨ fp ≠ p) :
    ∀ a ∈ (processItem env it).1, isWriteTo p a = false := by
  intro a ha
  rw [processItem_eq env it sym fp src h1 h2 h3] at ha
  rcases hsp with hskip | hfp
  · rw [hskip] at ha
    simp at ha
  · cases hskip : skipsFetch env sym fp src with
    | true => rw [hskip] at ha; simp at ha
    | false =>
      rw [hskip] at ha
      by_cases hsrc : src = "investing"
      · simp only [hsrc] at ha
        simp at ha
        cases hfund : get_fund_value (env.fundHttp sym) with
        | error e =>
          rw [hfund] at ha
          simp at ha
          rw [ha]
          rfl
        | ok v =>
          rw [hfund] at ha
          simp at ha
          rcases ha with ha | ha <;> rw [ha] <;> simp [isWriteTo, hfp]
      · simp [hsrc] at ha
        rcases ha with ha | ha <;> rw [ha] <;> simp [isWriteTo, hfp]

theorem runCycle_complete (env : Env) (items : List Item)
    (hwf : ∀ it ∈ items, it.symbol.isSome ∧ it.filepath.isSome ∧ it.source.isSome)
    (hnf : ∀ s, ∃ v, get_fund_value (env.fundHttp s) = Except.ok v) :
    (runCycle env items).2 = none ∧
    (runCycle env items).1 = items.foldr (fun it acc => (processItem env it).1 ++ acc) [] := by
  induction items with
  | nil => exact ⟨rfl, rfl⟩
  | cons it rest ih =>
    obtain ⟨hs, hp, hsc⟩ := hwf it (by simp)
    obtain ⟨sym, h1⟩ := Option.isSome_iff_exists.mp hs
    obtain ⟨fp, h2⟩ := Option.isSome_iff_exists.mp hp
    obtain ⟨src, h3⟩ := Option.isSome_iff_exists.mp hsc
    have hn := processItem_snd_none env it sym fp src h1 h2 h3 hnf
    have ihh := ih (fun x hx => hwf x (List.mem_cons_of_mem _ hx))
    rw [runCycle]
    rcases hpe : processItem env it with ⟨acts, snd⟩
    rw [hpe] at hn
    simp only at hn
    subst hn
    constructor
    · show (runCycle env rest).2 = none
      exact ihh.1
    · show acts ++ (runCycle env rest).1 = (processItem env it).1 ++ _
      rw [hpe, ihh.2]

theorem applyActions_no_write (p : String) :
    ∀ (acts : List Action) (c : String → String),
      (∀ a ∈ acts, isWriteTo p a = false) → applyActions c acts p = c p := by
  intro acts
  induction acts with
  | nil => intro c _; rfl
  | cons a rest ih =>
    intro c h
    have ha := h a (by simp)
    have hrest : ∀ x ∈ rest, isWriteTo p x = false := fun x hx => h x (by simp [hx])
    cases a with
    | fetchFund s => exact ih _ hrest
    | fetchQuote s => exact ih _ hrest
    | write q v ok =>
      cases ok with
      | false => exact ih _ hrest
      | true =>
        have hq : ¬ q = p := by
          simp [isWriteTo] at ha
          exact ha
        have step : applyActions c (Action.write q v true :: rest) =
            applyActions (fun x => if x = q then v else c x) rest := rfl
        rw [step, ih _ hrest]
        have hpq : ¬ p = q := fun h => hq h.symm
        simp [hpq]

theorem runCycle_writes_false (env : Env) (p : String) :
    ∀ items : List Item,
      (∀ it ∈ items, it.symbol.isSome ∧ it.filepath.isSome ∧ it.source.isSome) →
      (∀ s, ∃ v, get_fund_value (env.fundHttp s) = Except.ok v) →
      (∀ it ∈ items, ∀ sym fp src, it.symbol = some sym → it.filepath = some fp →
        it.source = some src → skipsFetch env sym fp src = true ∨ fp ≠ p) →
      ∀ a ∈ (runCycle env items).1, isWriteTo p a = false := by
  intro items
  induction items with
  | nil => intro _ _ _ a ha; simp [runCycle] at ha
  | cons it rest ih =>
    intro hwf hnf hcond a ha
    obtain ⟨hs, hpp, hsc⟩ := hwf it (by simp)
    obtain ⟨sym, h1⟩ := Option.isSome_iff_exists.mp hs
    obtain ⟨fp, h2⟩ := Option.isSome_iff_exists.mp hpp
    obtain ⟨src, h3⟩ := Option.isSome_iff_exists.mp hsc
    have hn := processItem_snd_none env it sym fp src h1 h2 h3 hnf
    rw [runCycle] at ha
    rcases hpe : processItem env it with ⟨acts, snd⟩
    rw [hpe] at hn ha
    simp only at hn
    subst hn
    simp only [List.mem_append] at ha
    rcases ha with ha | ha
    · exact processItem_writes_false env it sym fp src p h1 h2 h3
        (hcond it (by simp) sym fp src h1 h2 h3) a (by rw [hpe]; exact ha)
    · exact ih (fun x hx => hwf x (List.mem_cons_of_mem _ hx)) hnf
        (fun x hx => hcond x (List.mem_cons_of_mem _ hx)) a ha

/-! ### Claim theorems -/

/-- C1 (code bug): the claim states that each ValueSource variant always
returns a string and never raises past its own boundary, in particular
`get_fund_value` when the historical table's `tbody` is absent or the first
data row has fewer than two cells.  The code violates this: in exactly those
two document shapes `get_fund_value` raises an (uncaught) `AttributeError`
resp. `IndexError` instead of returning a string. -/
theorem c1_get_fund_value_raises :
    get_fund_value (HttpResult.ok ⟨some ⟨none⟩⟩) = Except.error PyExc.attributeError ∧
    get_fund_value (HttpResult.ok ⟨some ⟨some ⟨some ⟨["1,23"]⟩⟩⟩⟩) =
      Except.error PyExc.indexError :=
  ⟨rfl, rfl⟩

/-- C3: `is_market_open` returns true iff the provider-reported
`marketState` field is one of REGULAR, PRE, POST, and on any provider error
it returns false; the model's total `Bool` return type reflects that the
source catches every exception inside the function, so nothing propagates
to the caller. -/
theorem c3_is_market_open_iff (r : MarketInfo) :
    (is_market_open r = true ↔
      ∃ s, r = MarketInfo.info (some s) ∧ (s = "REGULAR" ∨ s = "PRE" ∨ s = "POST")) ∧
    (∀ e, is_market_open (MarketInfo.raise e) = false) := by
  constructor
  · cases r with
    | raise e => simp [is_market_open]
    | info ms =>
      cases ms with
      | none => simp [is_market_open]
      | some s => simp [is_market_open]
  · intro e
    rfl

/-- C5: `get_time_to_next_monday` returns 0 whenever the current day is a
weekday (Monday through Friday); on Saturday or Sunday (stated at
whole-second times, where "the exact number of seconds remaining" is an
integer) advancing the current time by exactly the returned number of
seconds lands on the following Monday 00:00 local time, and no smaller
advance does. -/
theorem c5_weekend_gate (t : LocalTime) :
    (t.weekday.val < 5 → get_time_to_next_monday t = 0) ∧
    (5 ≤ t.weekday.val → t.microsecond.val = 0 →
      isMondayMidnight (advanceSeconds t (get_time_to_next_monday t)) ∧
      ∀ k < get_time_to_next_monday t, ¬ isMondayMidnight (advanceSeconds t k)) := by
  have hh := t.hour.isLt
  have hm2 := t.minute.isLt
  have hs := t.second.isLt
  have hw7 := t.weekday.isLt
  have hsod : secondsIntoDay t < 86400 := by rw [secondsIntoDay]; omega
  constructor
  · intro h
    rw [get_time_to_next_monday, if_neg (by omega)]
  · intro hw hmic
    have hf : get_time_to_next_monday t = (7 - t.weekday.val) * 86400 - secondsIntoDay t := by
      rw [get_time_to_next_monday, if_pos hw]
      show ((7 - t.weekday.val) * 86400 * 1000000 -
          (secondsIntoDay t * 1000000 + t.microsecond.val)) / 1000000 = _
      rw [hmic]
      have heq : (7 - t.weekday.val) * 86400 * 1000000 - (secondsIntoDay t * 1000000 + 0) =
          ((7 - t.weekday.val) * 86400 - secondsIntoDay t) * 1000000 := by
        rw [Nat.sub_mul]
        omega
      rw [heq, Nat.mul_div_cancel _ (by norm_num)]
    constructor
    · rw [hf]
      have htot : 86400 * t.weekday.val + secondsIntoDay t +
          ((7 - t.weekday.val) * 86400 - secondsIntoDay t) = 604800 := by omega
      refine ⟨?_, ?_, ?_⟩
      · show (86400 * t.weekday.val + secondsIntoDay t +
            ((7 - t.weekday.val) * 86400 - secondsIntoDay t)) % 604800 / 86400 = 0
        rw [htot]
      · show 3600 * ((86400 * t.weekday.val + secondsIntoDay t +
              ((7 - t.weekday.val) * 86400 - secondsIntoDay t)) % 604800 % 86400 / 3600) +
            60 * ((86400 * t.weekday.val + secondsIntoDay t +
              ((7 - t.weekday.val) * 86400 - secondsIntoDay t)) % 604800 % 3600 / 60) +
            (86400 * t.weekday.val + secondsIntoDay t +
              ((7 - t.weekday.val) * 86400 - secondsIntoDay t)) % 604800 % 60 = 0
        rw [htot]
      · exact hmic
    · intro k hk hmid
      rw [hf] at hk
      obtain ⟨h1, _, _⟩ := hmid
      simp only [advanceSeconds] at h1
      omega

/-- Witness for C5: at Saturday 10:00:00 the returned duration reaches the
following Monday 00:00 exactly, and at Wednesday 10:00:00 the returned
duration is 0. -/
theorem c5_weekend_gate_witness :
    isMondayMidnight (advanceSeconds satTen (get_time_to_next_monday satTen)) ∧
    get_time_to_next_monday wedTen = 0 :=
  ⟨((c5_weekend_gate satTen).2 (by norm_num [satTen]) (by norm_num [satTen])).1,
    (c5_weekend_gate wedTen).1 (by norm_num [wedTen])⟩

/-- C8: formatting a value `v` to the 6-decimal comma-separated output
string (the `format6` path used verbatim by both `get_current_value` and
`get_fund_value`) and then parsing that string back, converting the comma
decimal separator back to a period, reproduces `v` to 6 decimal places:
the parsed value rounds to 6 places exactly as `v` does. -/
theorem c8_format_roundtrip (v : ℚ) :
    (∃ q, parseCommaValue (format6 v) = some q ∧ roundTo6 q = roundTo6 v) ∧
    get_current_value (YfHistory.data [v]) = format6 v := by
  refine ⟨⟨(rhe6 v : ℚ) / 1000000, parseCommaValue_format6 v, ?_⟩, rfl⟩
  rw [roundTo6, roundTo6, rhe6_div_1000000]

/-- C4: for a scraped-fund instrument, if its output file exists, its
modification time can be read and its age is strictly under 24 hours, the
cycle performs no action at all for the instrument (the scraping fetch is
not invoked and the file is retained as is); if the file is absent,
unstattable (a non-fatal condition), or at least 24 hours old, the scraping
fetch is invoked. -/
theorem c4_scraped_skip (env : Env) (it : Item) (sym fp : String)
    (h1 : it.symbol = some sym) (h2 : it.filepath = some fp)
    (h3 : it.source = some "investing") :
    ((∃ m, env.mtime fp = some (Except.ok m) ∧ env.now - m < 24 * 3600) →
      processItem env it = ([], none)) ∧
    (¬ (∃ m, env.mtime fp = some (Except.ok m) ∧ env.now - m < 24 * 3600) →
      Action.fetchFund sym ∈ (processItem env it).1) := by
  rw [processItem_eq env it sym fp "investing" h1 h2 h3]
  have hskip_eq : skipsFetch env sym fp "investing" = true ↔
      ∃ m, env.mtime fp = some (Except.ok m) ∧ env.now - m < 24 * 3600 := by
    rw [skipsFetch, if_pos rfl]
    cases hmt : env.mtime fp with
    | none => simp
    | some r =>
      cases r with
      | error e => simp
      | ok m => simp
  constructor
  · intro hex
    rw [if_pos (hskip_eq.mpr hex)]
  · intro hnex
    have hb : skipsFetch env sym fp "investing" = false := by
      cases hb : skipsFetch env sym fp "investing" with
      | true => exact absurd (hskip_eq.mp hb) hnex
      | false => rfl
    cases hf : get_fund_value (env.fundHttp sym) with
    | error e => simp [hb, hf]
    | ok v => simp [hb, hf]

/-- Witness for C4: in `envDemo` the fresh-file scraped instrument performs
no action, while the absent-file scraped instrument invokes the fetch. -/
theorem c4_scraped_skip_witness :
    processItem envDemo itemFresh = ([], none) ∧
    Action.fetchFund "FUND" ∈ (processItem envDemo itemAbsent).1 := by
  constructor
  · exact (c4_scraped_skip envDemo itemFresh "FUND" "fresh.txt" rfl rfl rfl).1
      ⟨999000, rfl, by decide⟩
  · refine (c4_scraped_skip envDemo itemAbsent "FUND" "absent.txt" rfl rfl rfl).2 ?_
    rintro ⟨m, hm, _⟩
    have hnone : envDemo.mtime "absent.txt" = none := rfl
    rw [hnone] at hm
    exact Option.noConfusion hm

/-- C6 (amended): in a cycle whose configuration entries are well formed and
in which no fund fetch raises (see C1/C7), the loop performs exactly one
write attempt to the output file of each non-skipped instrument and zero
write attempts for each skipped instrument, and the cycle raises nothing;
consequently the content of any path that every instrument either skips or
does not own is unchanged by the cycle.  Amendment relative to the claim:
a skipped instrument's file content is guaranteed unchanged only when no
other, non-skipped instrument is configured with the same output path
(output-path uniqueness is not enforced — see the counterexample). -/
theorem c6_writes_per_cycle (env : Env) (items : List Item) (c0 : String → String)
    (hwf : ∀ it ∈ items, it.symbol.isSome ∧ it.filepath.isSome ∧ it.source.isSome)
    (hnf : ∀ s, ∃ v, get_fund_value (env.fundHttp s) = Except.ok v) :
    (runCycle env items).2 = none ∧
    (∀ it ∈ items, ∀ sym fp src, it.symbol = some sym → it.filepath = some fp →
      it.source = some src →
      countWrites (processItem env it).1 fp = (if skipsFetch env sym fp src then 0 else 1) ∧
      ∀ p, p ≠ fp → countWrites (processItem env it).1 p = 0) ∧
    (∀ p, (∀ it ∈ items, ∀ sym fp src, it.symbol = some sym → it.filepath = some fp →
        it.source = some src → skipsFetch env sym fp src = true ∨ fp ≠ p) →
      applyActions c0 (runCycle env items).1 p = c0 p) := by
  refine ⟨(runCycle_complete env items hwf hnf).1, ?_, ?_⟩
  · intro it hit sym fp src h1 h2 h3
    exact processItem_countWrites env it sym fp src h1 h2 h3 hnf
  · intro p hcond
    exact applyActions_no_write p _ c0 (runCycle_writes_false env p items hwf hnf hcond)

/-- Counterexample to C6 as stated: two market-quote instruments share one
output path; the first is skipped (its market is closed) and receives zero
writes, yet its file content is changed by the cycle, because the second,
non-skipped instrument writes its value to the same path. -/
theorem c6_skipped_file_changed :
    skipsFetch envSafe "CLOSED" "shared.txt" "yahoo" = true ∧
    applyActions (fun _ => "old") (runCycle envSafe itemsAlias).1 "shared.txt" ≠ "old" := by
  have h5 : rhe6 5 = 5000000 := rhe6_of_eq_int (by norm_num)
  have hfmt : format6 5 = "5,000000" := by
    simp only [format6, h5]
    decide
  constructor
  · decide
  · have hrun : (runCycle envSafe itemsAlias).1 =
        [Action.fetchQuote "OPEN", Action.write "shared.txt" (format6 5) true] := rfl
    rw [hrun]
    show (if "shared.txt" = "shared.txt" then format6 5 else "old") ≠ "old"
    rw [if_pos rfl, hfmt]
    decide

/-- Witness for C6 (amended): a one-instrument cycle whose market is closed
completes with no exception and leaves the instrument's file content
unchanged. -/
theorem c6_writes_per_cycle_witness :
    (runCycle envSafe itemsSkipOnly).2 = none ∧
    applyActions (fun _ => "old") (runCycle envSafe itemsSkipOnly).1 "a.txt" = "old" := by
  have h := c6_writes_per_cycle envSafe itemsSkipOnly (fun _ => "old")
    (by decide) (fun s => ⟨"Connection Error: timeout", rfl⟩)
  refine ⟨h.1, h.2.2 "a.txt" ?_⟩
  intro it hit sym fp src h1 h2 h3
  left
  simp only [itemsSkipOnly, List.mem_singleton] at hit
  subst hit
  injection h1 with h1
  injection h2 with h2
  injection h3 with h3
  subst h1
  subst h2
  subst h3
  decide

/-- C7 (code bug): the claim states that every per-instrument fetch or write
failure is isolated, so one instrument's failure never prevents processing
of subsequent instruments or terminates the process.  In `envDemo` the
first instrument's fund page lacks a `tbody`: `get_fund_value` raises an
`AttributeError` (see C1), the cycle aborts with that exception, and the
second instrument — non-skipped — is never reached and gets zero writes;
since the `while True` loop has no handler, the exception terminates the
process. -/
theorem c7_failure_propagates :
    (runCycle envDemo itemsCrash).2 = some PyExc.attributeError ∧
    (runCycle envDemo itemsCrash).1 = [Action.fetchFund "BADPAGE"] ∧
    skipsFetch envDemo "OPEN" "f2.txt" "yahoo" = false ∧
    countWrites (runCycle envDemo itemsCrash).1 "f2.txt" = 0 := by
  refine ⟨?_, ?_, ?_, ?_⟩ <;> decide

/-- C2 (amended): when optional settings keys are absent, `load_config`
fills in exactly the specified defaults — sleep_interval 30 with a warning
logged, log_level INFO (numeric 20), log_file "./price_tracker.log",
max_log_size_mb 5, backup_count 3 — and an unrecognized log_level value
yields INFO.  Amendment relative to the claim: no warning line is emitted
for an unrecognized log_level; the only warning `load_config` can emit is
the one for an absent sleep_interval (see the counterexample). -/
theorem c2_config_defaults (items : List Item) (rs : RawSettings) :
    load_config ⟨some (YamlSymbols.list items), none⟩ =
      Except.ok ⟨items, ⟨30, 20, "./price_tracker.log", 5, 3⟩, [sleepIntervalWarning]⟩ ∧
    ∀ c, load_config ⟨some (YamlSymbols.list items), some rs⟩ = Except.ok c →
      (rs.sleep_interval = none → c.settings.sleep_interval = 30 ∧
        c.warnings = [sleepIntervalWarning]) ∧
      (rs.log_level = none → c.settings.log_level = 20) ∧
      (rs.log_file = none → c.settings.log_file = "./price_tracker.log") ∧
      (rs.max_log_size_mb = none → c.settings.max_log_size_mb = 5) ∧
      (rs.backup_count = none → c.settings.backup_count = 3) ∧
      (∀ s, rs.log_level = some s → List.lookup (pyUpper s) LOG_LEVEL_MAP = none →
        c.settings.log_level = 20) ∧
      (c.warnings = [] ∨ c.warnings = [sleepIntervalWarning]) := by
  constructor
  · rfl
  · intro c hc
    simp only [load_config] at hc
    injection hc with hc
    subst hc
    refine ⟨?_, ?_, ?_, ?_, ?_, ?_, ?_⟩
    · intro h
      simp [h]
    · intro h
      simp [h]
      decide
    · intro h
      simp [h]
    · intro h
      simp [h]
    · intro h
      simp [h]
    · intro s hs hlk
      simp [hs, hlk]
    · cases hsl : rs.sleep_interval with
      | none => right; simp [hsl]
      | some v => left; simp [hsl]

/-- Counterexample to C2 as stated: a configuration whose log_level has the
unrecognized value "BANANA" loads with level INFO (20) but an empty warning
list — no warning line is emitted for the unrecognized level. -/
theorem c2_no_warning_on_bad_level :
    load_config ⟨some (YamlSymbols.list []), some ⟨some 5, some "BANANA", none, none, none⟩⟩ =
      Except.ok ⟨[], ⟨5, 20, "./price_tracker.log", 5, 3⟩, []⟩ := rfl

/-- Witness for C2 (amended): the defaults at a settings-free configuration,
and the INFO level resulting from the unrecognized value "BANANA". -/
theorem c2_config_defaults_witness :
    load_config ⟨some (YamlSymbols.list []), none⟩ =
      Except.ok ⟨[], ⟨30, 20, "./price_tracker.log", 5, 3⟩, [sleepIntervalWarning]⟩ ∧
    (⟨[], ⟨5, 20, "./price_tracker.log", 5, 3⟩, []⟩ : LoadedConfig).settings.log_level = 20 := by
  refine ⟨(c2_config_defaults [] ⟨none, none, none, none, none⟩).1, ?_⟩
  exact ((c2_config_defaults [] ⟨some 5, some "BANANA", none, none, none⟩).2
    ⟨[], ⟨5, 20, "./price_tracker.log", 5, 3⟩, []⟩ rfl).2.2.2.2.2.1 "BANANA" rfl
    (by decide)

/-- C9: `load_config` validates only that the symbols key exists and is a
list — entries of any shape load successfully, while an absent symbols key
is fatal at load time; an entry missing filepath makes the startup pass
over the entries (lines 203-208) raise a `KeyError` that is caught by the
startup handler, so the process returns before the run loop; if every entry
has a filepath, startup passes, and an entry missing symbol or source makes
the first cycle abort with an uncaught `KeyError` when that entry is
reached (provided no fund fetch raises first, see C1), terminating the
process mid-run. -/
theorem c9_partial_validation (items : List Item) (st : Option RawSettings) (env : Env) :
    (∃ c, load_config ⟨some (YamlSymbols.list items), st⟩ = Except.ok c ∧ c.symbols = items) ∧
    (∀ cfg : RawConfig, cfg.symbols = none →
      load_config cfg = Except.error
        (ConfigError.keyError "YAML configuration missing \x27symbols\x27 section.")) ∧
    ((∃ it ∈ items, it.filepath = none) →
      startupFilepaths items = Except.error (PyExc.keyError "filepath")) ∧
    ((∀ it ∈ items, it.filepath.isSome) → ∃ fps, startupFilepaths items = Except.ok fps) ∧
    ((∀ it ∈ items, it.filepath.isSome) →
      (∀ s, ∃ v, get_fund_value (env.fundHttp s) = Except.ok v) →
      (∃ it ∈ items, it.symbol = none ∨ it.source = none) →
      ∃ k, (runCycle env items).2 = some (PyExc.keyError k) ∧
        (k = "symbol" ∨ k = "source")) := by
  refine ⟨⟨_, rfl, rfl⟩, ?_, ?_, ?_, ?_⟩
  · intro cfg h
    obtain ⟨sy, se⟩ := cfg
    simp only at h
    subst h
    rfl
  · intro hex
    induction items with
    | nil => simp at hex
    | cons it rest ih =>
      rw [startupFilepaths]
      rcases hex with ⟨x, hx, hxp⟩
      rcases List.mem_cons.mp hx with hx | hx
      · subst hx
        rw [hxp]
      · have hr := ih ⟨x, hx, hxp⟩
        cases hit : it.filepath with
        | none => rfl
        | some fp => rw [hr]
  · intro hfp
    induction items with
    | nil => exact ⟨[], rfl⟩
    | cons it rest ih =>
      obtain ⟨fp, hf⟩ := Option.isSome_iff_exists.mp (hfp it (by simp))
      obtain ⟨fps, hfs⟩ := ih (fun x hx => hfp x (by simp [hx]))
      exact ⟨fp :: fps, by rw [startupFilepaths, hf, hfs]⟩
  · intro hfp hnf hex
    induction items with
    | nil => simp at hex
    | cons it rest ih =>
      cases hsy : it.symbol with
      | none =>
        refine ⟨"symbol", ?_, Or.inl rfl⟩
        have hpi : processItem env it = ([], some (PyExc.keyError "symbol")) := by
          rw [processItem, hsy]
        rw [runCycle, hpi]
      | some sym =>
        obtain ⟨fp, hf⟩ := Option.isSome_iff_exists.mp (hfp it (by simp))
        cases hsc : it.source with
        | none =>
          refine ⟨"source", ?_, Or.inr rfl⟩
          have hpi : processItem env it = ([], some (PyExc.keyError "source")) := by
            rw [processItem, hsy, hf, hsc]
          rw [runCycle, hpi]
        | some src =>
          have hn := processItem_snd_none env it sym fp src hsy hf hsc hnf
          have hex2 : ∃ x ∈ rest, x.symbol = none ∨ x.source = none := by
            rcases hex with ⟨x, hx, hxo⟩
            rcases List.mem_cons.mp hx with hx | hx
            · subst hx
              rcases hxo with h | h
              · rw [hsy] at h
                exact absurd h (by simp)
              · rw [hsc] at h
                exact absurd h (by simp)
            · exact ⟨x, hx, hxo⟩
          obtain ⟨k, hk, hk2⟩ := ih (fun x hx => hfp x (by simp [hx])) hex2
          refine ⟨k, ?_, hk2⟩
          rw [runCycle]
          rcases hpe : processItem env it with ⟨acts, snd⟩
          rw [hpe] at hn
          simp only at hn
          subst hn
          exact hk

/-- Witness for C9: the no-filepath entry is fatal at startup; the
configuration whose second entry lacks a source key loads, passes startup,
and aborts the first cycle with a KeyError for "source". -/
theorem c9_partial_validation_witness :
    startupFilepaths itemsNoPath = Except.error (PyExc.keyError "filepath") ∧
    (∃ fps, startupFilepaths itemsMissingKey = Except.ok fps) ∧
    (∃ k, (runCycle envSafe itemsMissingKey).2 = some (PyExc.keyError k) ∧
      (k = "symbol" ∨ k = "source")) := by
  refine ⟨?_, ?_, ?_⟩
  · exact (c9_partial_validation itemsNoPath none envSafe).2.2.1 (by decide)
  · exact (c9_partial_validation itemsMissingKey none envSafe).2.2.2.1 (by decide)
  · exact (c9_partial_validation itemsMissingKey none envSafe).2.2.2.2 (by decide)
      (fun s => ⟨"Connection Error: timeout", rfl⟩) (by decide)

/-- C10: log_level matching is case-insensitive — the configured string is
upper-cased before the map lookup, so every string whose upper-casing is a
recognized level name yields that level rather than the INFO fallback (for
example "debug" yields DEBUG = 10, see the witness). -/
theorem c10_log_level_case_insensitive (items : List Item) (rs : RawSettings) (s : String)
    (lv : Nat) (hlk : List.lookup (pyUpper s) LOG_LEVEL_MAP = some lv) :
    ∃ c, load_config ⟨some (YamlSymbols.list items),
        some { rs with log_level := some s }⟩ = Except.ok c ∧
      c.settings.log_level = lv := by
  refine ⟨_, rfl, ?_⟩
  show (List.lookup (pyUpper s) LOG_LEVEL_MAP).getD 20 = lv
  rw [hlk]
  rfl

/-- Witness for C10: the lower-case value "debug" yields level DEBUG (10),
not the INFO fallback (20). -/
theorem c10_log_level_case_insensitive_witness :
    ∃ c, load_config ⟨some (YamlSymbols.list []),
        some ⟨none, some "debug", none, none, none⟩⟩ = Except.ok c ∧
      c.settings.log_level = 10 :=
  c10_log_level_case_insensitive [] ⟨none, none, none, none, none⟩ "debug" 10 (by decide)

end PriceTracker

